import Mathlib

/-!
Verification development for the terradrift-watcher repository.

The Go sources are shallowly embedded: the process environment becomes an
explicit `Env` value threaded through the functions that read or write it,
external effects (the terraform binary, the filesystem, Slack webhooooks)
become oracles passed in as parameters, and each Go function is translated
into a Lean definition of the same name.
-/

namespace TerraDrift

/-! ### Process environment model

`os.Setenv` / `os.Unsetenv` / `os.Getenv` act on the process-wide
environment, modelled as a total lookup function. -/

def Env : Type := String → Option String

def emptyEnv : Env := fun _ => none

def setEnv (k v : String) (e : Env) : Env :=
  fun x => if x = k then some v else e x

def unsetEnv (k : String) (e : Env) : Env :=
  fun x => if x = k then none else e x

/-! ### Configuration data model (internal/config/config.go) -/

structure AuthProfile where
  name : String
  provider : String
  config : List (String × String)
  deriving DecidableEq, Repr

structure NotifierCfg where
  name : String
  ty : String
  config : List (String × String)
  enabled : Option Bool
  deriving DecidableEq, Repr

structure Project where
  name : String
  path : String
  authProfile : String
  notifiers : List String
  enabled : Option Bool
  deriving DecidableEq, Repr

structure Config where
  projects : List Project
  authProfiles : List AuthProfile
  notifiers : List NotifierCfg
  deriving DecidableEq, Repr

/-- Constants from internal/config/config.go. -/
def AWSAccessKeyID : String := "AWS_ACCESS_KEY_ID"

def AWSSecretAccessKey : String := "AWS_SECRET_ACCESS_KEY"

def AWSSessionToken : String := "AWS_SESSION_TOKEN"

def AWSRegion : String := "AWS_DEFAULT_REGION"

def AzureClientID : String := "ARM_CLIENT_ID"

def AzureClientSecret : String := "ARM_CLIENT_SECRET"

def AzureSubscriptionID : String := "ARM_SUBSCRIPTION_ID"

def AzureTenantID : String := "ARM_TENANT_ID"

def SlackWebhookURL : String := "webhook_url"

/-- `Config.GetAuthProfile`: first profile whose name matches, else an error
(modelled as `none`). -/
def getAuthProfile (cfg : Config) (name : String) : Option AuthProfile :=
  cfg.authProfiles.find? (fun p => p.name == name)

/-- `Config.GetNotifier`: first notifier whose name matches, else an error
(modelled as `none`). -/
def getNotifier (cfg : Config) (name : String) : Option NotifierCfg :=
  cfg.notifiers.find? (fun n => n.name == name)

/-! ### Credential scope manager (internal/detector/engine.go) -/

/-- One iteration of the `aws` branch of `setAuthEnvironment`'s
`for key, value := range profile.Config` loop. -/
def awsSetOne (env : Env) (kv : String × String) : Env :=
  match kv.1 with
  | "access_key_id" => setEnv AWSAccessKeyID kv.2 env
  | "secret_access_key" => setEnv AWSSecretAccessKey kv.2 env
  | "session_token" => setEnv AWSSessionToken kv.2 env
  | "region" => setEnv AWSRegion kv.2 env
  | _ => setEnv kv.1 kv.2 env

/-- One iteration of the `azure` branch of `setAuthEnvironment`. -/
def azureSetOne (env : Env) (kv : String × String) : Env :=
  match kv.1 with
  | "client_id" => setEnv AzureClientID kv.2 env
  | "client_secret" => setEnv AzureClientSecret kv.2 env
  | "subscription_id" => setEnv AzureSubscriptionID kv.2 env
  | "tenant_id" => setEnv AzureTenantID kv.2 env
  | _ => setEnv kv.1 kv.2 env

/-- The environment-mutating body of `setAuthEnvironment` (engine.go), after
the profile has been resolved.  Go map iteration order is unspecified; the
profile's config is modelled as an ordered list of key/value pairs. -/
def setAuthEnvironment (profile : AuthProfile) (e : Env) : Env :=
  match profile.provider with
  | "aws" => profile.config.foldl awsSetOne e
  | "azure" => profile.config.foldl azureSetOne e
  | "gcp" => profile.config.foldl (fun env kv => setEnv kv.1 kv.2 env) e
  | _ => profile.config.foldl (fun env kv => setEnv kv.1 kv.2 env) e

/-- The fixed set of variables unset by `clearAuthEnvironment` (engine.go),
in source order. -/
def credentialVars : List String :=
  [AWSAccessKeyID, AWSSecretAccessKey, AWSSessionToken, AWSRegion,
   AzureClientID, AzureClientSecret, AzureSubscriptionID, AzureTenantID,
   "GOOGLE_APPLICATION_CREDENTIALS", "GOOGLE_CLOUD_PROJECT"]

/-- `clearAuthEnvironment` (engine.go): unconditionally unset the fixed set
of credential variables. -/
def clearAuthEnvironment (e : Env) : Env :=
  credentialVars.foldl (fun env v => unsetEnv v env) e

/-! ### String utilities

Executable counterparts of the Go `strings` functions used by the sources,
defined structurally over the character list of a `String` so that concrete
inputs evaluate inside the kernel. -/

/-- `startsList pat l` decides whether `l` starts with `pat`
(Go `strings.HasPrefix`). -/
def startsList : List Char → List Char → Bool
  | [], _ => true
  | _ :: _, [] => false
  | a :: as, b :: bs => a == b && startsList as bs

/-- `containsSub pat l` decides whether `pat` occurs inside `l`
(Go `strings.Contains`). -/
def containsSub (pat : List Char) : List Char → Bool
  | [] => pat.isEmpty
  | b :: bs => startsList pat (b :: bs) || containsSub pat bs

def containsStr (s pat : String) : Bool := containsSub pat.data s.data

def strStarts (s pat : String) : Bool := startsList pat.data s.data

/-- Go `strings.TrimSpace`. -/
def strTrim (s : String) : String :=
  String.mk (((s.data.dropWhile Char.isWhitespace).reverse.dropWhile Char.isWhitespace).reverse)

/-- Split a character list at every occurrence of `c`
(Go `strings.Split` with a one-character separator). -/
def splitOnChar (c : Char) : List Char → List (List Char)
  | [] => [[]]
  | a :: as =>
    let r := splitOnChar c as
    if a == c then [] :: r
    else
      match r with
      | [] => [[a]]
      | h :: t => (a :: h) :: t

/-- Go `strings.Split(s, "\n")`. -/
def splitLines (s : String) : List String :=
  (splitOnChar (Char.ofNat 10) s.data).map (fun l => String.mk l)

/-! ### State-comparator adapter (internal/terraform/executor.go)

The external terraform binary is modelled by a `TfWorld` oracle describing
how its two subcommands would behave for one project directory.  Filesystem
lock-artifact cleanup (`cleanupLockFiles`) is a side effect on files the
claims never mention and is not modelled. -/

/-- Outcome of `cmd.Run()` for the plan subcommand: either the process ran
and exited with a code (`*exec.ExitError` or success), or execution itself
failed (the non-`ExitError` branch). -/
inductive PlanOutcome where
  | exited (code : Int)
  | execFail (msg : String)
  deriving DecidableEq, Repr

structure TfWorld where
  pathExists : Bool
  initOk : Bool
  initOutput : String
  planOutcome : PlanOutcome
  planOutput : String
  deriving DecidableEq, Repr

/-- Error-message classification of a failed `terraform init`
(runTerraformInit, engine side of the substring checks). -/
def initErrMsg (output : String) : String :=
  if containsStr output "Error loading backend config" ||
      containsStr output "Backend initialization required" ||
      containsStr output "Error configuring the backend" then
    "backend initialization failed - may need manual intervention: " ++ output
  else if containsStr output "Could not load plugin" ||
      containsStr output "Provider produced inconsistent" then
    "provider initialization failed - check provider versions: " ++ output
  else
    "terraform init failed: " ++ output

/-- `runTerraformInit` (executor.go): combined output and optional error. -/
def runTerraformInit (w : TfWorld) : String × Option String :=
  if w.initOk then (w.initOutput, none)
  else (w.initOutput, some (initErrMsg w.initOutput))

/-- `runTerraformPlan` (executor.go): output, exit code, optional error. -/
def runTerraformPlan (w : TfWorld) : String × Int × Option String :=
  match w.planOutcome with
  | PlanOutcome.execFail msg =>
    (w.planOutput, 1, some ("failed to execute terraform plan: " ++ msg))
  | PlanOutcome.exited c =>
    if c = 2 then (w.planOutput, 2, none)
    else if c = 0 then (w.planOutput, 0, none)
    else
      (w.planOutput, c,
        some ("terraform plan failed with exit code " ++ toString c ++ ": " ++ w.planOutput))

/-- `CheckDrift` (executor.go): validate the path, run init, run plan, and
pass the tri-state exit code upward. -/
def CheckDrift (w : TfWorld) (projectPath : String) : String × Int × Option String :=
  if w.pathExists = false then
    ("", 1, some ("project path does not exist: " ++ projectPath))
  else
    match runTerraformInit w with
    | (iout, some e) => (iout, 1, some ("terraform init failed: " ++ e))
    | (_, none) =>
      let pr := runTerraformPlan w
      match pr.2.2 with
      | some e =>
        if pr.2.1 = 2 then (pr.1, pr.2.1, none)
        else (pr.1, pr.2.1, some ("terraform plan failed: " ++ e))
      | none => (pr.1, pr.2.1, none)

/-! #### ExtractPlanSummary (executor.go) -/

def isSummaryLine (line : String) : Bool :=
  containsStr line "Plan:" || containsStr line "No changes" || containsStr line "to add" ||
    containsStr line "to change" || containsStr line "to destroy"

def isChangeMarked (t : String) : Bool :=
  strStarts t "#" || strStarts t "~" || strStarts t "+" || strStarts t "-"

def willBeLine (line : String) : Bool :=
  containsStr line "will be" &&
    (containsStr line "created" || containsStr line "destroyed" ||
      containsStr line "updated" || containsStr line "replaced")

/-- The line scan of `ExtractPlanSummary`: walks the lines with index `i`,
the `captureChanges` flag and the two accumulators, mirroring the Go loop
body statement by statement (`continue` on the actions header included). -/
def scanPlan (total : Nat) :
    Nat → Bool → List String → List String → List String → List String × List String
  | _, _, summary, changes, [] => (summary, changes)
  | i, cap, summary, changes, line :: rest =>
    let t := strTrim line
    let summary1 := if isSummaryLine line then summary ++ [t] else summary
    if containsStr line "Terraform will perform the following actions:" then
      scanPlan total (i + 1) true summary1 changes rest
    else
      let changes1 :=
        if cap && decide (changes.length < 10) && isChangeMarked t then changes ++ [t]
        else changes
      let changes2 :=
        if willBeLine line && decide (changes1.length < 10) then changes1 ++ [t] else changes1
      let cap1 :=
        if cap && (containsStr line "─────────────" || decide (total < i + 10)) then false
        else cap
      scanPlan total (i + 1) cap1 summary1 changes2 rest

def driftFallback : String := "Drift detected in Terraform configuration"

def ellipsisMarker : String := "\n  ... (more changes, see full plan for details)"

/-- The result-building tail of `ExtractPlanSummary` for the captured
resource-change lines. -/
def renderChanges (changes : List String) : String :=
  if changes.isEmpty then ""
  else
    "\n\nResource Changes Detected:" ++ String.join (changes.map (fun c => "\n  " ++ c)) ++
      (if changes.length = 10 then ellipsisMarker else "")

/-- `ExtractPlanSummary` (executor.go). -/
def ExtractPlanSummary (planOutput : String) : String :=
  let lines := splitLines planOutput
  let sc := scanPlan lines.length 0 false [] [] lines
  (if sc.1.isEmpty then driftFallback else String.intercalate "\n" sc.1) ++ renderChanges sc.2

/-! ### Run lock (lock.go)

The lock marker is modelled by `Option Nat`: `some age` means the marker
file exists and its mtime is `age` seconds in the past, `none` means no
marker.  The model is sequential and error-free: `os.Remove` of an
existing file succeeds, and the exclusive create succeeds exactly when no
marker exists (the raced `os.IsExist` branch is unreachable). -/

inductive AcquireOutcome where
  | ok
  | alreadyRunning (msg : String)
  deriving DecidableEq, Repr

/-- The staleness threshold: `time.Hour`, in seconds. -/
def staleThresholdSecs : Nat := 3600

namespace FileLock

/-- `FileLock.Acquire` (lock.go): returns the outcome and the marker state
afterwards (`some 0` is the freshly created marker holding our pid). -/
def Acquire (lockPath : String) (marker : Option Nat) : AcquireOutcome × Option Nat :=
  match marker with
  | some age =>
    if staleThresholdSecs < age then (AcquireOutcome.ok, some 0)
    else
      (AcquireOutcome.alreadyRunning
          ("another instance is already running (lock file: " ++ lockPath ++ ")"),
        some age)
  | none => (AcquireOutcome.ok, some 0)

end FileLock

/-! ### Alert dispatcher retry loop (internal/notifier/slack.go)

One delivery attempt is abstracted by an oracle from the attempt index to
`none` (HTTP success) or `some err` (transport error or non-200 status).
The trace records the attempt count and the backoff waits, in seconds,
slept before each retry. -/

structure RetryTrace where
  attempts : Nat
  waits : List Nat
  lastErr : Option String
  deriving DecidableEq, Repr

/-- The `for attempt := 0; attempt <= maxRetries; attempt++` loop of
`SendSlackRichNotificationWithRetry`, with `fuel` attempts remaining and
`k` the current attempt index.  `lastErr = none` means some attempt
succeeded and the loop returned early. -/
def retryAux (oracle : Nat → Option String) : Nat → Nat → RetryTrace
  | _, 0 => ⟨0, [], none⟩
  | k, fuel + 1 =>
    let w : List Nat := if k = 0 then [] else [2 ^ (k - 1)]
    match oracle k with
    | none => ⟨1, w, none⟩
    | some e =>
      let r := retryAux oracle (k + 1) fuel
      ⟨r.attempts + 1, w ++ r.waits, if r.attempts = 0 then some e else r.lastErr⟩

/-- `SendSlackRichNotificationWithRetry` (slack.go): the loop runs attempts
`0..maxRetries`; if every attempt fails the last error is wrapped together
with the count `maxRetries + 1` printed in the message. -/
def sendSlackRichNotificationWithRetry (oracle : Nat → Option String) (maxRetries : Nat) :
    RetryTrace × Option (Nat × String) :=
  let r := retryAux oracle 0 (maxRetries + 1)
  (r, r.lastErr.map (fun e => (maxRetries + 1, e)))

/-! ### Notification dispatch (engine.go sendNotification) -/

/-- Result of one slack webhook delivery (with its internal retries),
keyed by webhook URL, project name, summary and plan output. -/
def SlackOracle : Type := String → String → String → String → Option String

def lookupKV (l : List (String × String)) (k : String) : Option String :=
  (l.find? (fun kv => kv.1 == k)).map (fun kv => kv.2)

/-- Outcome of `sendNotification`: the returned error (if any) and whether
any outbound network delivery was attempted. -/
structure SendOutcome where
  errMsg : Option String
  networkCall : Bool
  deriving DecidableEq, Repr

/-- `sendNotification` (engine.go): resolve the notifier, skip disabled
ones, dispatch by type; `teams` and `email` log a warning and return nil
without any delivery attempt. -/
def sendNotification (cfg : Config) (so : SlackOracle)
    (notifierName projectName summary planOutput : String) : SendOutcome :=
  match getNotifier cfg notifierName with
  | none => ⟨some ("notifier not found: " ++ notifierName), false⟩
  | some n =>
    if n.enabled = some false then ⟨none, false⟩
    else
      match n.ty with
      | "slack" =>
        match lookupKV n.config SlackWebhookURL with
        | none => ⟨some ("slack webhook URL not configured for notifier " ++ notifierName), false⟩
        | some url => ⟨so url projectName summary planOutput, true⟩
      | "teams" => ⟨none, false⟩
      | "email" => ⟨none, false⟩
      | _ => ⟨some ("unknown notifier type " ++ n.ty ++ " for notifier " ++ notifierName), false⟩

/-- The notification fan-out loop of `RunWithResult`'s drift branch:
returns `(notificationsSent, anyFailure)`. -/
def notifyAll (cfg : Config) (so : SlackOracle) (names : List String)
    (projectName summary planOutput : String) : Nat × Bool :=
  names.foldl
    (fun acc m =>
      match (sendNotification cfg so m projectName summary planOutput).errMsg with
      | some _ => (acc.1, true)
      | none => (acc.1 + 1, acc.2))
    (0, false)

/-! ### Orchestration engine (engine.go RunWithResult)

The per-project loop is modelled with the environment, the number of
registered `defer clearAuthEnvironment()` calls, and the two run-level
flags threaded explicitly.  Each project also yields a `ProjectTrace`
recording what the loop observably did for it, including the environment
at the moment its iteration started. -/

def FsOracle : Type := String → TfWorld

structure ProjectTrace where
  projectName : String
  skipped : Bool
  envBefore : Env
  comparatorInvoked : Bool
  dispatchedTo : List String
  warned : Bool

structure LoopOut where
  traces : List ProjectTrace
  env : Env
  dc : Nat
  hasErrors : Bool
  drift : Bool

/-- Step 1 of an enabled project's iteration: resolve and apply the
credential profile.  `none` models the `setAuthEnvironment` error branch
(profile not found); on success one more deferred clear is registered. -/
def authStep (cfg : Config) (p : Project) (env : Env) (dc : Nat) : Option (Env × Nat) :=
  if p.authProfile = "" then some (env, dc)
  else
    match getAuthProfile cfg p.authProfile with
    | none => none
    | some prof => some (setAuthEnvironment prof env, dc + 1)

/-- The `for _, project := range cfg.Projects` loop of `RunWithResult`. -/
def runLoop (cfg : Config) (fs : FsOracle) (so : SlackOracle) :
    List Project → Env → Nat → Bool → Bool → LoopOut
  | [], env, dc, he, df => ⟨[], env, dc, he, df⟩
  | p :: rest, env, dc, he, df =>
    if p.enabled = some false then
      let r := runLoop cfg fs so rest env dc he df
      ⟨⟨p.name, true, env, false, [], false⟩ :: r.traces, r.env, r.dc, r.hasErrors, r.drift⟩
    else
      match authStep cfg p env dc with
      | none =>
        let r := runLoop cfg fs so rest env dc true df
        ⟨⟨p.name, false, env, false, [], false⟩ :: r.traces, r.env, r.dc, r.hasErrors, r.drift⟩
      | some (env1, dc1) =>
        let cd := CheckDrift (fs p.path) p.path
        if cd.2.1 = 0 then
          let r := runLoop cfg fs so rest env1 dc1 he df
          ⟨⟨p.name, false, env, true, [], false⟩ :: r.traces, r.env, r.dc, r.hasErrors, r.drift⟩
        else if cd.2.1 = 2 then
          let nr := notifyAll cfg so p.notifiers p.name (ExtractPlanSummary cd.1) cd.1
          let r := runLoop cfg fs so rest env1 dc1 (he || nr.2) true
          ⟨⟨p.name, false, env, true, p.notifiers,
              (nr.1 == 0) && decide (0 < p.notifiers.length)⟩ :: r.traces,
            r.env, r.dc, r.hasErrors, r.drift⟩
        else
          let r := runLoop cfg fs so rest env1 dc1 true df
          ⟨⟨p.name, false, env, true, [], false⟩ :: r.traces, r.env, r.dc, r.hasErrors, r.drift⟩

structure RunResult where
  drift : Bool
  err : Option String
  traces : List ProjectTrace
  finalEnv : Env

/-- `RunWithResult` (engine.go).  `terraformOk` models
`ValidateTerraformInstallation`.  The deferred `clearAuthEnvironment`
calls registered inside the loop all run when the function returns, which
`finalEnv` reflects by iterating the clear once per registration. -/
def runWithResult (cfg : Config) (terraformOk : Bool) (fs : FsOracle) (so : SlackOracle)
    (env0 : Env) : RunResult :=
  if terraformOk = false then
    ⟨false, some "terraform validation failed", [], env0⟩
  else
    let r := runLoop cfg fs so cfg.projects env0 0 false false
    ⟨r.drift,
      if r.hasErrors then some "drift detection completed with errors" else none,
      r.traces,
      Nat.iterate clearAuthEnvironment r.dc r.env⟩

/-! #### Per-project outcome predicates

Pure per-project restatements of one loop iteration's contribution to the
run-level flags; the loop characterization theorem proves the engine
accumulates exactly these. -/

/-- Step 1 fails: a credential profile is referenced but unknown. -/
def credentialLookupFails (cfg : Config) (p : Project) : Bool :=
  !(p.authProfile == "") && (getAuthProfile cfg p.authProfile).isNone

/-- Whether one project's iteration records a run-level error. -/
def projectError (cfg : Config) (fs : FsOracle) (so : SlackOracle) (p : Project) : Bool :=
  if p.enabled = some false then false
  else if credentialLookupFails cfg p then true
  else
    let cd := CheckDrift (fs p.path) p.path
    if cd.2.1 = 0 then false
    else if cd.2.1 = 2 then
      (notifyAll cfg so p.notifiers p.name (ExtractPlanSummary cd.1) cd.1).2
    else true

/-- Whether one project's iteration sets the run-level drift flag. -/
def projectDrift (cfg : Config) (fs : FsOracle) (p : Project) : Bool :=
  if p.enabled = some false then false
  else if credentialLookupFails cfg p then false
  else decide ((CheckDrift (fs p.path) p.path).2.1 = 2)

/-! ### Concrete fixtures used by witnesses and counterexamples -/

/-- An oracle world where the path exists, init succeeds and plan exits 0. -/
def cleanWorld : TfWorld := ⟨true, true, "", PlanOutcome.exited 0, ""⟩

def fsClean : FsOracle := fun _ => cleanWorld

def soAlwaysOk : SlackOracle := fun _ _ _ _ => none

def profA : AuthProfile := ⟨"p1", "aws", [("access_key_id", "KEY1")]⟩

def profB : AuthProfile := ⟨"p2", "aws", [("access_key_id", "KEY2")]⟩

def projAlpha : Project := ⟨"alpha", "/proj/a", "p1", [], none⟩

def projBeta : Project := ⟨"beta", "/proj/b", "p2", [], none⟩

/-- Two enabled projects, each applying its own aws credential profile. -/
def cfgTwoAuth : Config := ⟨[projAlpha, projBeta], [profA, profB], []⟩

/-- A gcp profile whose key has no entry in the per-provider lookup table:
`apply` sets it verbatim under its own name. -/
def gcpVerbatimProfile : AuthProfile := ⟨"g", "gcp", [("MY_GCP_TOKEN", "tok")]⟩

def disabledSlack : NotifierCfg :=
  ⟨"slack-off", "slack", [("webhook_url", "https://hooks.example/x")], some false⟩

def teamsOn : NotifierCfg := ⟨"teams-main", "teams", [], none⟩

def emailOn : NotifierCfg := ⟨"email-main", "email", [], some true⟩

def cfgChannels : Config := ⟨[], [], [disabledSlack, teamsOn, emailOn]⟩

/-- The scan half of `ExtractPlanSummary`, exposed for the statements. -/
def planScanResult (planOutput : String) : List String × List String :=
  scanPlan (splitLines planOutput).length 0 false [] [] (splitLines planOutput)

def world0 : TfWorld := ⟨true, true, "", PlanOutcome.exited 0, "out0"⟩

def world2 : TfWorld := ⟨true, true, "", PlanOutcome.exited 2, "out2"⟩

def world3 : TfWorld := ⟨true, true, "", PlanOutcome.exited 3, "out3"⟩

def worldX : TfWorld := ⟨true, true, "", PlanOutcome.execFail "spawn failed", "outX"⟩

def projDisabled : Project := ⟨"off", "/proj/off", "", [], some false⟩

/-- A plan output containing exactly ten resource-change entry lines. -/
def tenChangesPlan : String :=
  "Plan: 10 to add, 0 to change, 0 to destroy.\n" ++
  "a1 will be created\n" ++ "a2 will be created\n" ++ "a3 will be created\n" ++
  "a4 will be created\n" ++ "a5 will be created\n" ++ "a6 will be created\n" ++
  "a7 will be created\n" ++ "a8 will be created\n" ++ "a9 will be created\n" ++
  "a10 will be created"

theorem unsetEnv_lookup (k : String) (e : Env) (v : String) :
    unsetEnv k e v = if v = k then none else e v := rfl

theorem foldl_unsetEnv_lookup :
    ∀ (l : List String) (e : Env) (v : String),
      (l.foldl (fun env k => unsetEnv k env) e) v = if v ∈ l then none else e v := by
  intro l
  induction l with
  | nil => intro e v; simp
  | cons k ks ih =>
    intro e v
    by_cases hk : v = k
    · simp [List.foldl, ih, unsetEnv_lookup, hk]
    · simp [List.foldl, ih, unsetEnv_lookup, hk]

/-- Lookup characterization of `clearAuthEnvironment`: a cleared environment
has `none` exactly at the fixed credential variables and is untouched
elsewhere. -/
theorem clearAuthEnvironment_lookup (e : Env) (v : String) :
    clearAuthEnvironment e v = if v ∈ credentialVars then none else e v :=
  foldl_unsetEnv_lookup credentialVars e v

/-- C2 (amended): after `clear()`, no variable of the fixed credential set
(the four AWS, four Azure and two GCP variable names) remains set,
regardless of which (if any) profile was applied; outside that fixed set
`clear()` changes nothing, and `clear()` is idempotent.  Keys that
`apply()` sets verbatim under their own names are outside the fixed set
and are not removed. -/
theorem claim2_clear_fixed_set_and_idempotent (profile : AuthProfile) (e : Env) :
    (∀ v, v ∈ credentialVars →
        clearAuthEnvironment (setAuthEnvironment profile e) v = none)
    ∧ (∀ v, v ∉ credentialVars → clearAuthEnvironment e v = e v)
    ∧ (∀ v, clearAuthEnvironment (clearAuthEnvironment e) v = clearAuthEnvironment e v) := by
  refine ⟨?_, ?_, ?_⟩
  · intro v hv
    simp [clearAuthEnvironment_lookup, hv]
  · intro v hv
    simp [clearAuthEnvironment_lookup, hv]
  · intro v
    by_cases hv : v ∈ credentialVars <;> simp [clearAuthEnvironment_lookup, hv]

theorem claim2_witness :
    clearAuthEnvironment (setAuthEnvironment profA emptyEnv) AWSAccessKeyID = none
    ∧ clearAuthEnvironment (clearAuthEnvironment emptyEnv) "OTHER_VAR"
        = clearAuthEnvironment emptyEnv "OTHER_VAR" :=
  ⟨(claim2_clear_fixed_set_and_idempotent profA emptyEnv).1 AWSAccessKeyID (by decide),
   (claim2_clear_fixed_set_and_idempotent profA emptyEnv).2.2 "OTHER_VAR"⟩

/-- C2 counterexample: a gcp profile key with no entry in the lookup table
is set verbatim by `apply()` and survives `clear()`, so it is false that
after `clear()` no environment variable set by that `apply()` remains
set. -/
theorem claim2_counterexample :
    clearAuthEnvironment (setAuthEnvironment gcpVerbatimProfile emptyEnv) "MY_GCP_TOKEN"
      = some "tok" := by
  rfl

/-- C4: a fresh marker (age at most the 1-hour threshold) makes `Acquire`
fail with the already-running error and leaves the marker in place; a
stale marker (age strictly over the threshold) is deleted and the fresh
creation succeeds, acquiring the lock. -/
theorem claim4_lock_staleness (lockPath : String) (age : Nat) :
    (age ≤ staleThresholdSecs →
        FileLock.Acquire lockPath (some age)
          = (AcquireOutcome.alreadyRunning
                ("another instance is already running (lock file: " ++ lockPath ++ ")"),
              some age))
    ∧ (staleThresholdSecs < age →
        FileLock.Acquire lockPath (some age) = (AcquireOutcome.ok, some 0)) := by
  constructor
  · intro h
    simp [FileLock.Acquire, Nat.not_lt.mpr h]
  · intro h
    simp [FileLock.Acquire, h]

theorem claim4_witness :
    (FileLock.Acquire "/tmp/terradrift-watcher.lock" (some 3600)
        = (AcquireOutcome.alreadyRunning
              ("another instance is already running (lock file: "
                ++ "/tmp/terradrift-watcher.lock" ++ ")"),
            some 3600))
    ∧ FileLock.Acquire "/tmp/terradrift-watcher.lock" (some 3601)
        = (AcquireOutcome.ok, some 0) :=
  ⟨(claim4_lock_staleness "/tmp/terradrift-watcher.lock" 3600).1 (by decide),
   (claim4_lock_staleness "/tmp/terradrift-watcher.lock" 3601).2 (by decide)⟩

/-- C3: on an existing path with a successful init, the plan exit code is
classified exhaustively: 0 yields no drift and no error, 2 yields drift
and no error, and any other outcome yields that exit code (1 for an
execution failure) with a non-nil error. -/
theorem claim3_classification (w : TfWorld) (path : String)
    (hp : w.pathExists = true) (hi : w.initOk = true) :
    (w.planOutcome = PlanOutcome.exited 0 → CheckDrift w path = (w.planOutput, 0, none))
    ∧ (w.planOutcome = PlanOutcome.exited 2 → CheckDrift w path = (w.planOutput, 2, none))
    ∧ (∀ c : Int, c ≠ 0 → c ≠ 2 → w.planOutcome = PlanOutcome.exited c →
        (CheckDrift w path).2.1 = c ∧ (CheckDrift w path).2.2 ≠ none)
    ∧ (∀ msg, w.planOutcome = PlanOutcome.execFail msg →
        (CheckDrift w path).2.1 = 1 ∧ (CheckDrift w path).2.2 ≠ none) := by
  refine ⟨?_, ?_, ?_, ?_⟩
  · intro h
    simp [CheckDrift, runTerraformInit, runTerraformPlan, hp, hi, h]
  · intro h
    simp [CheckDrift, runTerraformInit, runTerraformPlan, hp, hi, h]
  · intro c h0 h2 h
    simp [CheckDrift, runTerraformInit, runTerraformPlan, hp, hi, h, h0, h2]
  · intro msg h
    simp [CheckDrift, runTerraformInit, runTerraformPlan, hp, hi, h]

theorem claim3_witness :
    CheckDrift world0 "/p" = ("out0", 0, none)
    ∧ CheckDrift world2 "/p" = ("out2", 2, none)
    ∧ ((CheckDrift world3 "/p").2.1 = 3 ∧ (CheckDrift world3 "/p").2.2 ≠ none)
    ∧ ((CheckDrift worldX "/p").2.1 = 1 ∧ (CheckDrift worldX "/p").2.2 ≠ none) :=
  ⟨(claim3_classification world0 "/p" rfl rfl).1 rfl,
   (claim3_classification world2 "/p" rfl rfl).2.1 rfl,
   (claim3_classification world3 "/p" rfl rfl).2.2.1 3 (by decide) (by decide) rfl,
   (claim3_classification worldX "/p" rfl rfl).2.2.2 "spawn failed" rfl⟩

/-- C9: dispatching to a channel whose enabled flag is explicitly false
returns success and makes no network call. -/
theorem claim9_disabled_channel (cfg : Config) (so : SlackOracle)
    (notifierName projectName summary planOutput : String) (n : NotifierCfg)
    (hfind : getNotifier cfg notifierName = some n) (hdis : n.enabled = some false) :
    sendNotification cfg so notifierName projectName summary planOutput
      = ⟨none, false⟩ := by
  simp [sendNotification, hfind, hdis]

theorem claim9_witness :
    sendNotification cfgChannels soAlwaysOk "slack-off" "p" "s" "o" = ⟨none, false⟩ :=
  claim9_disabled_channel cfgChannels soAlwaysOk "slack-off" "p" "s" "o" disabledSlack rfl rfl

theorem notifyAll_all_ok (cfg : Config) (so : SlackOracle)
    (projectName summary planOutput : String) :
    ∀ (names : List String) (a : Nat) (b : Bool),
      (∀ m ∈ names, (sendNotification cfg so m projectName summary planOutput).errMsg = none) →
      names.foldl
          (fun acc m =>
            match (sendNotification cfg so m projectName summary planOutput).errMsg with
            | some _ => (acc.1, true)
            | none => (acc.1 + 1, acc.2))
          (a, b)
        = (a + names.length, b) := by
  intro names
  induction names with
  | nil => intro a b _; simp
  | cons m rest ih =>
    intro a b h
    have hm := h m (List.mem_cons_self m rest)
    simp only [List.foldl, hm]
    rw [ih (a + 1) b (fun x hx => h x (List.mem_cons_of_mem m hx))]
    simp [List.length_cons]
    omega

/-- C10: an enabled notifier of type teams or email returns success from
`sendNotification` with no delivery attempt or network call; a drifted
project whose channels are all such notifiers therefore counts every one
as sent, records no error, and never triggers the unnotified-drift
warning. -/
theorem claim10_unimplemented_kinds (cfg : Config) (so : SlackOracle)
    (projectName summary planOutput : String) :
    (∀ notifierName n, getNotifier cfg notifierName = some n → n.enabled ≠ some false →
        (n.ty = "teams" ∨ n.ty = "email") →
        sendNotification cfg so notifierName projectName summary planOutput = ⟨none, false⟩)
    ∧ (∀ names : List String,
        (∀ m ∈ names, ∃ k, getNotifier cfg m = some k ∧ k.enabled ≠ some false ∧
            (k.ty = "teams" ∨ k.ty = "email")) →
        notifyAll cfg so names projectName summary planOutput = (names.length, false)
        ∧ ((((notifyAll cfg so names projectName summary planOutput).1 == 0)
              && decide (0 < names.length)) = false)) := by
  have hone : ∀ notifierName n, getNotifier cfg notifierName = some n →
      n.enabled ≠ some false → (n.ty = "teams" ∨ n.ty = "email") →
      sendNotification cfg so notifierName projectName summary planOutput = ⟨none, false⟩ := by
    intro notifierName n hfind hen hty
    rcases hty with hty | hty <;> simp [sendNotification, hfind, hen, hty]
  refine ⟨hone, ?_⟩
  intro names hall
  have hsent : notifyAll cfg so names projectName summary planOutput = (names.length, false) := by
    have hok : ∀ m ∈ names,
        (sendNotification cfg so m projectName summary planOutput).errMsg = none := by
      intro m hm
      obtain ⟨k, hfind, hen, hty⟩ := hall m hm
      rw [hone m k hfind hen hty]
    have := notifyAll_all_ok cfg so projectName summary planOutput names 0 false hok
    simpa [notifyAll] using this
  refine ⟨hsent, ?_⟩
  rw [hsent]
  cases names with
  | nil => simp
  | cons x xs => simp

theorem claim10_witness :
    sendNotification cfgChannels soAlwaysOk "teams-main" "p" "s" "o" = ⟨none, false⟩
    ∧ notifyAll cfgChannels soAlwaysOk ["teams-main", "email-main"] "p" "s" "o" = (2, false) := by
  have h := claim10_unimplemented_kinds cfgChannels soAlwaysOk "p" "s" "o"
  have hprem : ∀ m ∈ ["teams-main", "email-main"],
      ∃ k, getNotifier cfgChannels m = some k ∧ k.enabled ≠ some false ∧
        (k.ty = "teams" ∨ k.ty = "email") := by
    intro m hm
    rcases List.mem_cons.mp hm with h1 | h1
    · exact ⟨teamsOn, by subst h1; decide, by decide, Or.inl rfl⟩
    · rcases List.mem_cons.mp h1 with h2 | h2
      · exact ⟨emailOn, by subst h2; decide, by decide, Or.inr rfl⟩
      · simp at h2
  exact ⟨h.1 "teams-main" teamsOn rfl (by decide) (Or.inl rfl),
    (h.2 ["teams-main", "email-main"] hprem).1⟩

/-- C7: a project whose enabled flag is explicitly false is skipped: its
trace shows the comparator was not invoked and no channel was dispatched
to, and the loop's environment, deferred clears, error flag and drift
flag are exactly those of processing the remaining projects alone. -/
theorem claim7_disabled_project (cfg : Config) (fs : FsOracle) (so : SlackOracle)
    (p : Project) (rest : List Project) (env : Env) (dc : Nat) (he df : Bool)
    (hdis : p.enabled = some false) :
    runLoop cfg fs so (p :: rest) env dc he df
      = ⟨⟨p.name, true, env, false, [], false⟩ :: (runLoop cfg fs so rest env dc he df).traces,
          (runLoop cfg fs so rest env dc he df).env,
          (runLoop cfg fs so rest env dc he df).dc,
          (runLoop cfg fs so rest env dc he df).hasErrors,
          (runLoop cfg fs so rest env dc he df).drift⟩ := by
  simp [runLoop, hdis]

theorem claim7_witness :
    runLoop cfgTwoAuth fsClean soAlwaysOk [projDisabled] emptyEnv 0 false false
      = ⟨[⟨"off", true, emptyEnv, false, [], false⟩], emptyEnv, 0, false, false⟩ := by
  have h := claim7_disabled_project cfgTwoAuth fsClean soAlwaysOk projDisabled []
    emptyEnv 0 false false rfl
  rw [h]
  rfl

theorem retryAux_attempts_le (oracle : Nat → Option String) :
    ∀ (fuel k : Nat), (retryAux oracle k fuel).attempts ≤ fuel := by
  intro fuel
  induction fuel with
  | zero => intro k; simp [retryAux]
  | succ f ih =>
    intro k
    simp only [retryAux]
    cases h : oracle k with
    | none => simp
    | some e =>
      simp only []
      have := ih (k + 1)
      omega

theorem retryAux_attempts_eq_zero (oracle : Nat → Option String) :
    ∀ (fuel k : Nat), (retryAux oracle k fuel).attempts = 0 ↔ fuel = 0 := by
  intro fuel
  cases fuel with
  | zero => intro k; simp [retryAux]
  | succ f =>
    intro k
    simp only [retryAux]
    cases h : oracle k with
    | none => simp
    | some e => simp

theorem retryAux_succ (oracle : Nat → Option String) (k fuel : Nat) :
    retryAux oracle k (fuel + 1)
      = match oracle k with
        | none => ⟨1, if k = 0 then [] else [2 ^ (k - 1)], none⟩
        | some e =>
          ⟨(retryAux oracle (k + 1) fuel).attempts + 1,
            (if k = 0 then [] else [2 ^ (k - 1)]) ++ (retryAux oracle (k + 1) fuel).waits,
            if (retryAux oracle (k + 1) fuel).attempts = 0 then some e
            else (retryAux oracle (k + 1) fuel).lastErr⟩ := by
  cases h : oracle k <;> simp [retryAux, h]

theorem retryAux_waits_shift (oracle : Nat → Option String) :
    ∀ (fuel k : Nat),
      (retryAux oracle (k + 1) fuel).waits
        = (List.range (retryAux oracle (k + 1) fuel).attempts).map (fun j => 2 ^ (k + j)) := by
  intro fuel
  induction fuel with
  | zero => intro k; simp [retryAux]
  | succ f ih =>
    intro k
    rw [retryAux_succ]
    cases h : oracle (k + 1) with
    | none =>
      dsimp only
      rw [if_neg (Nat.succ_ne_zero k), Nat.add_sub_cancel]
      simp [List.range_succ]
    | some e =>
      dsimp only
      rw [if_neg (Nat.succ_ne_zero k), Nat.add_sub_cancel, ih (k + 1),
        List.range_succ_eq_map, List.map_cons, List.map_map, List.singleton_append]
      have hfun : ((fun j => 2 ^ (k + j)) ∘ Nat.succ) = (fun j : Nat => 2 ^ (k + 1 + j)) := by
        funext j
        simp only [Function.comp_apply]
        congr 1
        omega
      rw [hfun]
      simp

theorem retryAux_waits_zero (oracle : Nat → Option String) (fuel : Nat) :
    (retryAux oracle 0 fuel).waits
      = (List.range ((retryAux oracle 0 fuel).attempts - 1)).map (fun j => 2 ^ j) := by
  cases fuel with
  | zero => simp [retryAux]
  | succ f =>
    rw [retryAux_succ]
    cases h : oracle 0 with
    | none => simp
    | some e =>
      dsimp only
      rw [if_pos rfl, List.nil_append, Nat.add_sub_cancel,
        retryAux_waits_shift oracle f 0]
      apply List.map_congr_left
      intro j _
      simp

theorem retryAux_first_success (oracle : Nat → Option String) :
    ∀ (m k fuel : Nat), m < fuel → oracle (k + m) = none →
      (∀ j, j < m → oracle (k + j) ≠ none) →
      (retryAux oracle k fuel).attempts = m + 1 ∧ (retryAux oracle k fuel).lastErr = none := by
  intro m
  induction m with
  | zero =>
    intro k fuel hm hk _
    cases fuel with
    | zero => omega
    | succ f =>
      have hk0 : oracle k = none := by simpa using hk
      simp [retryAux, hk0]
  | succ m ih =>
    intro k fuel hm hsucc hfail
    cases fuel with
    | zero => omega
    | succ f =>
      have h0 : oracle k ≠ none := by
        have := hfail 0 (Nat.succ_pos m)
        simpa using this
      cases hor : oracle k with
      | none => exact absurd hor h0
      | some e =>
        have ihr := ih (k + 1) f (by omega)
          (by rw [show k + 1 + m = k + (m + 1) by omega]; exact hsucc)
          (fun j hj => by
            rw [show k + 1 + j = k + (j + 1) by omega]
            exact hfail (j + 1) (by omega))
        simp only [retryAux, hor]
        refine ⟨by simp [ihr.1], ?_⟩
        simp [ihr.1, ihr.2]

theorem retryAux_all_fail (oracle : Nat → Option String) :
    ∀ (fuel k : Nat), 0 < fuel → (∀ j, j < fuel → oracle (k + j) ≠ none) →
      (retryAux oracle k fuel).attempts = fuel
      ∧ (retryAux oracle k fuel).lastErr = oracle (k + fuel - 1) := by
  intro fuel
  induction fuel with
  | zero => intro k h; omega
  | succ f ih =>
    intro k _ hfail
    have h0 : oracle k ≠ none := by
      have := hfail 0 (Nat.succ_pos f)
      simpa using this
    cases hor : oracle k with
    | none => exact absurd hor h0
    | some e =>
      rw [retryAux_succ]
      cases f with
      | zero =>
        rw [hor]
        simp [retryAux, hor]
      | succ f2 =>
        rw [hor]
        have ihr := ih (k + 1) (by omega) (fun j hj => by
          rw [show k + 1 + j = k + (j + 1) by omega]
          exact hfail (j + 1) (by omega))
        have hne : (retryAux oracle (k + 1) (f2 + 1)).attempts ≠ 0 := by
          rw [ihr.1]; omega
        dsimp only
        refine ⟨by rw [ihr.1], ?_⟩
        rw [if_neg hne, ihr.2]
        congr 1
        omega

/-- C5: the retry send makes at most `maxRetries + 1` attempts with waits
of 1, 2, 4, … seconds between consecutive attempts; it stops at the first
successful attempt (making exactly `m + 1` attempts when attempt `m` is
the first success) and, when every attempt fails, makes exactly
`maxRetries + 1` attempts and returns the last error wrapped with that
total attempt count. -/
theorem claim5_retry_policy (oracle : Nat → Option String) (maxRetries : Nat) :
    (sendSlackRichNotificationWithRetry oracle maxRetries).1.attempts ≤ maxRetries + 1
    ∧ (sendSlackRichNotificationWithRetry oracle maxRetries).1.waits
        = (List.range ((sendSlackRichNotificationWithRetry oracle maxRetries).1.attempts - 1)).map
            (fun j => 2 ^ j)
    ∧ (∀ m, m ≤ maxRetries → oracle m = none → (∀ j, j < m → oracle j ≠ none) →
        (sendSlackRichNotificationWithRetry oracle maxRetries).1.attempts = m + 1
        ∧ (sendSlackRichNotificationWithRetry oracle maxRetries).2 = none)
    ∧ ((∀ j, j ≤ maxRetries → oracle j ≠ none) →
        (sendSlackRichNotificationWithRetry oracle maxRetries).1.attempts = maxRetries + 1
        ∧ ∃ e, oracle maxRetries = some e
            ∧ (sendSlackRichNotificationWithRetry oracle maxRetries).2
                = some (maxRetries + 1, e)) := by
  refine ⟨retryAux_attempts_le oracle (maxRetries + 1) 0,
    retryAux_waits_zero oracle (maxRetries + 1), ?_, ?_⟩
  · intro m hm hsucc hfail
    have h := retryAux_first_success oracle m 0 (maxRetries + 1) (by omega)
      (by simpa using hsucc) (fun j hj => by simpa using hfail j hj)
    exact ⟨h.1, by simp [sendSlackRichNotificationWithRetry, h.2]⟩
  · intro hfail
    have h := retryAux_all_fail oracle (maxRetries + 1) 0 (by omega)
      (fun j hj => by simpa using hfail j (by omega))
    have hlast : oracle maxRetries ≠ none := hfail maxRetries (by omega)
    cases hor : oracle maxRetries with
    | none => exact absurd hor hlast
    | some e =>
      refine ⟨h.1, e, rfl, ?_⟩
      have h2 := h.2
      rw [show 0 + (maxRetries + 1) - 1 = maxRetries by omega, hor] at h2
      simp [sendSlackRichNotificationWithRetry, h2]

theorem claim5_witness :
    (sendSlackRichNotificationWithRetry (fun k => if k < 2 then some "boom" else none) 3).1.attempts
        = 3
    ∧ (sendSlackRichNotificationWithRetry (fun k => if k < 2 then some "boom" else none) 3).2
        = none := by
  refine (claim5_retry_policy (fun k => if k < 2 then some "boom" else none) 3).2.2.1 2
    (by omega) (by simp) ?_
  intro j hj
  simp [hj]

theorem guardedAppend_le (changes : List String) (cond : Bool) (t : String)
    (hcond : cond = true → changes.length < 10) (hc : changes.length ≤ 10) :
    (if cond then changes ++ [t] else changes).length ≤ 10 := by
  by_cases hco : cond = true
  · have := hcond hco
    simp [hco, List.length_append]
    omega
  · have hfalse : cond = false := by simpa using hco
    simpa [hfalse] using hc

theorem scanPlan_changes_le (total : Nat) :
    ∀ (lines : List String) (i : Nat) (cap : Bool) (summary changes : List String),
      changes.length ≤ 10 → ((scanPlan total i cap summary changes lines).2).length ≤ 10 := by
  intro lines
  induction lines with
  | nil =>
    intro i cap summary changes hc
    simpa [scanPlan] using hc
  | cons line rest ih =>
    intro i cap summary changes hc
    simp only [scanPlan]
    split
    · exact ih _ _ _ _ hc
    · apply ih
      apply guardedAppend_le
      · intro h
        have := of_decide_eq_true (Bool.and_elim_right h)
        exact this
      · apply guardedAppend_le
        · intro h
          have h2 := Bool.and_elim_right (Bool.and_elim_left h)
          exact of_decide_eq_true h2
        · exact hc

/-- C8 (amended): `ExtractPlanSummary` returns the captured change-count
summary lines (or the generic drift-detected sentence when none was
found) followed by at most ten captured resource-change entry lines, and
the ellipsis marker is appended exactly when ten entries were captured —
including the case where exactly ten exist and nothing was dropped. -/
theorem claim8_extract_plan_summary (planOutput : String) :
    (planScanResult planOutput).2.length ≤ 10
    ∧ ExtractPlanSummary planOutput
        = (if (planScanResult planOutput).1.isEmpty then driftFallback
            else String.intercalate "\n" (planScanResult planOutput).1)
          ++ (if (planScanResult planOutput).2.isEmpty then ""
              else "\n\nResource Changes Detected:"
                ++ String.join ((planScanResult planOutput).2.map (fun c => "\n  " ++ c))
                ++ (if (planScanResult planOutput).2.length = 10 then ellipsisMarker else "")) :=
  ⟨scanPlan_changes_le _ _ _ _ _ _ (by simp), rfl⟩

set_option maxRecDepth 100000 in
set_option maxHeartbeats 2000000 in
/-- C8 counterexample: `tenChangesPlan` contains exactly ten
resource-change entry lines, all ten are captured, and nothing exists
beyond them — yet the result still ends with the ellipsis marker, so the
marker is not appended only when more entries exist beyond the ten
captured. -/
theorem claim8_counterexample :
    ((splitLines tenChangesPlan).filter (fun l => willBeLine l)).length = 10
    ∧ (planScanResult tenChangesPlan).2.length = 10
    ∧ ExtractPlanSummary tenChangesPlan
        = "Plan: 10 to add, 0 to change, 0 to destroy." ++
          "\n\nResource Changes Detected:" ++
          "\n  a1 will be created" ++ "\n  a2 will be created" ++ "\n  a3 will be created" ++
          "\n  a4 will be created" ++ "\n  a5 will be created" ++ "\n  a6 will be created" ++
          "\n  a7 will be created" ++ "\n  a8 will be created" ++ "\n  a9 will be created" ++
          "\n  a10 will be created" ++ ellipsisMarker := by
  refine ⟨by decide, by decide, by decide⟩

theorem authStep_none_iff (cfg : Config) (p : Project) (env : Env) (dc : Nat) :
    authStep cfg p env dc = none ↔ credentialLookupFails cfg p = true := by
  unfold authStep credentialLookupFails
  by_cases h : p.authProfile = ""
  · simp [h]
  · cases hg : getAuthProfile cfg p.authProfile <;> simp [h, hg]

theorem runLoop_spec (cfg : Config) (fs : FsOracle) (so : SlackOracle) :
    ∀ (ps : List Project) (env : Env) (dc : Nat) (he df : Bool),
      (runLoop cfg fs so ps env dc he df).hasErrors
          = (he || ps.any (fun p => projectError cfg fs so p))
      ∧ (runLoop cfg fs so ps env dc he df).drift
          = (df || ps.any (fun p => projectDrift cfg fs p))
      ∧ (runLoop cfg fs so ps env dc he df).traces.map (fun t => t.projectName)
          = ps.map (fun p => p.name) := by
  intro ps
  induction ps with
  | nil => intro env dc he df; simp [runLoop]
  | cons p rest ih =>
    intro env dc he df
    by_cases hdis : p.enabled = some false
    · have h1 := ih env dc he df
      simp only [runLoop, if_pos hdis]
      refine ⟨?_, ?_, ?_⟩
      · simp [h1.1, projectError, hdis]
      · simp [h1.2.1, projectDrift, hdis]
      · simp [h1.2.2]
    · cases hauth : authStep cfg p env dc with
      | none =>
        have hcf : credentialLookupFails cfg p = true :=
          (authStep_none_iff cfg p env dc).mp hauth
        have h1 := ih env dc true df
        simp only [runLoop, if_neg hdis, hauth]
        refine ⟨?_, ?_, ?_⟩
        · simp [h1.1, projectError, hdis, hcf]
        · simp [h1.2.1, projectDrift, hdis, hcf]
        · simp [h1.2.2]
      | some pr =>
        obtain ⟨env1, dc1⟩ := pr
        have hcf : credentialLookupFails cfg p = false := by
          cases hb : credentialLookupFails cfg p
          · rfl
          · have hn := (authStep_none_iff cfg p env dc).mpr hb
            rw [hauth] at hn
            exact absurd hn (Option.some_ne_none _)
        by_cases h0 : (CheckDrift (fs p.path) p.path).2.1 = 0
        · have h1 := ih env1 dc1 he df
          simp only [runLoop, if_neg hdis, hauth, if_pos h0]
          refine ⟨?_, ?_, ?_⟩
          · simp [h1.1, projectError, hdis, hcf, h0]
          · simp [h1.2.1, projectDrift, hdis, hcf, h0]
          · simp [h1.2.2]
        · by_cases h2 : (CheckDrift (fs p.path) p.path).2.1 = 2
          · have h1 := ih env1 dc1
              (he || (notifyAll cfg so p.notifiers p.name
                (ExtractPlanSummary (CheckDrift (fs p.path) p.path).1)
                (CheckDrift (fs p.path) p.path).1).2) true
            simp only [runLoop, if_neg hdis, hauth, if_neg h0, if_pos h2]
            refine ⟨?_, ?_, ?_⟩
            · rw [h1.1]
              simp [projectError, hdis, hcf, h0, h2, Bool.or_assoc]
            · rw [h1.2.1]
              simp [projectDrift, hdis, hcf, h2]
            · simp [h1.2.2]
          · have h1 := ih env1 dc1 true df
            simp only [runLoop, if_neg hdis, hauth, if_neg h0, if_neg h2]
            refine ⟨?_, ?_, ?_⟩
            · simp [h1.1, projectError, hdis, hcf, h0, h2]
            · simp [h1.2.1, projectDrift, hdis, hcf, h0, h2]
            · simp [h1.2.2]

/-- C6: the engine processes every configured project (one trace per
project, in order) and returns the drift flag and the error aggregate
independently: the error is the generic completed-with-errors signal
exactly when some project's iteration recorded a per-project error
(credential-apply failure, comparator failure of any kind, or channel
delivery failure), and the drift flag is set exactly when some project's
comparison reported drift. -/
theorem claim6_aggregate_result (cfg : Config) (fs : FsOracle) (so : SlackOracle) (env0 : Env) :
    (runWithResult cfg true fs so env0).err
        = (if cfg.projects.any (fun p => projectError cfg fs so p)
            then some "drift detection completed with errors" else none)
    ∧ (runWithResult cfg true fs so env0).drift
        = cfg.projects.any (fun p => projectDrift cfg fs p)
    ∧ (runWithResult cfg true fs so env0).traces.map (fun t => t.projectName)
        = cfg.projects.map (fun p => p.name) := by
  have h := runLoop_spec cfg fs so cfg.projects env0 0 false false
  refine ⟨?_, ?_, ?_⟩
  · simp only [runWithResult]
    rw [if_neg (by simp)]
    simp only [h.1, Bool.false_or]
  · simp only [runWithResult]
    rw [if_neg (by simp)]
    simp [h.2.1]
  · simp only [runWithResult]
    rw [if_neg (by simp)]
    simpa using h.2.2

/-- C1: refuted on the code — the clears are deferred to function return,
not performed between projects.  In the two-project run `cfgTwoAuth`,
project alpha's applied AWS access key is still present in the
environment when project beta's iteration starts (its trace records
`AWS_ACCESS_KEY_ID = KEY1` before step 1), and the stacked deferred
clears only remove it in the final environment at return. -/
theorem claim1_credentials_persist_between_projects :
    ((runWithResult cfgTwoAuth true fsClean soAlwaysOk emptyEnv).traces.getD 1
        ⟨"", false, emptyEnv, false, [], false⟩).envBefore AWSAccessKeyID = some "KEY1"
    ∧ (runWithResult cfgTwoAuth true fsClean soAlwaysOk emptyEnv).finalEnv AWSAccessKeyID
        = none := by
  exact ⟨rfl, rfl⟩

end TerraDrift
